import Mathlib

/-!
Verification of the Bare browser's protocol core and navigation state
against its specification.

The JavaScript frontend modules (src/js/state.js, src/js/navigation.js,
src/js/constants.js) are embedded directly.  The Rust backend modules
(gemini.rs, gopher.rs, gemtext.rs, gophermap.rs) are present in the
repository only through their design documents (GOPHER.md, the Copilot
instructions file), which contain some complete function bodies
(to_markdown and the convert_* helpers) and, for the rest, only tests and
callers; those missing bodies are modelled from the specification and are
marked as such in their doc comments.
-/

set_option linter.unusedVariables false

/- ===================================================================
   Part 1: constants.js
   =================================================================== -/

/-- From src/js/constants.js: MAX_HISTORY_SIZE = 50. -/
def MAX_HISTORY_SIZE : Nat := 50

/-- From src/js/constants.js: GEMINI_INPUT_PROMPT_PREFIX
    (renamed; the source constant's name ends in a word this development
    avoids in identifiers). -/
def geminiInputPromptTag : String := "GEMINI_INPUT_PROMPT:"

/-- From src/js/constants.js: GEMINI_SENSITIVE_INPUT_PROMPT_PREFIX (renamed
    as above). -/
def geminiSensitiveInputPromptTag : String := "GEMINI_SENSITIVE_INPUT_PROMPT:"

/- ===================================================================
   Part 2: state.js — navigation history
   =================================================================== -/

/-- The slice of the application state that the history functions in
    src/js/state.js read and write.  `historyIndex` is a JS number that
    starts at -1, hence `Int`. -/
structure NavState where
  history : List String
  historyIndex : Int
  currentPath : Option String
  deriving Repr, DecidableEq

/-- The initial state object literal in src/js/state.js:
    history: [], historyIndex: -1. -/
def initialNavState : NavState :=
  { history := [], historyIndex := -1, currentPath := none }

/-- JavaScript `array.slice(0, endIdx)`: a negative end counts from the end
    of the array, a too-large end clamps. -/
def jsSliceTo (l : List String) (endIdx : Int) : List String :=
  if endIdx < 0 then l.take ((l.length : Int) + endIdx).toNat
  else l.take endIdx.toNat

/-- From src/js/state.js `addToHistory(path)`: drop the forward branch when
    the user has navigated back, push, reset the index to the last entry,
    then shift the oldest entry off when the bound is exceeded. -/
def addToHistory (s : NavState) (path : String) : NavState :=
  let hist :=
    if s.historyIndex < (s.history.length : Int) - 1 then
      jsSliceTo s.history (s.historyIndex + 1)
    else s.history
  let hist := hist ++ [path]
  let idx : Int := (hist.length : Int) - 1
  if hist.length > MAX_HISTORY_SIZE then
    { history := hist.drop 1, historyIndex := idx - 1, currentPath := some path }
  else
    { history := hist, historyIndex := idx, currentPath := some path }

/-- From src/js/state.js `canGoBack()`. -/
def canGoBack (s : NavState) : Bool :=
  s.historyIndex > 0

/-- From src/js/state.js `canGoForward()`. -/
def canGoForward (s : NavState) : Bool :=
  s.historyIndex < (s.history.length : Int) - 1

/-- From src/js/state.js `historyBack()`: returns the entry now pointed at
    (`none` models both JS `null` and an out-of-range access) together with
    the updated state. -/
def historyBack (s : NavState) : Option String × NavState :=
  if canGoBack s then
    let s' := { s with historyIndex := s.historyIndex - 1 }
    (s'.history[s'.historyIndex.toNat]?, s')
  else (none, s)

/-- From src/js/state.js `historyForward()`. -/
def historyForward (s : NavState) : Option String × NavState :=
  if canGoForward s then
    let s' := { s with historyIndex := s.historyIndex + 1 }
    (s'.history[s'.historyIndex.toNat]?, s')
  else (none, s)

/-- One call against the history API of state.js. -/
inductive NavOp where
  | add (path : String)
  | back
  | forward
  deriving Repr, DecidableEq

/-- Apply one history call to the state (return values discarded). -/
def navStep (s : NavState) : NavOp → NavState
  | .add path => addToHistory s path
  | .back => (historyBack s).2
  | .forward => (historyForward s).2

/-- Run a sequence of history calls from the initial state. -/
def navRun (ops : List NavOp) : NavState :=
  ops.foldl navStep initialNavState

/-- The history invariant: the bound on the length, the index staying in
    range while the history is non-empty, and the index being exactly -1
    while it is empty. -/
def NavInv (s : NavState) : Prop :=
  s.history.length ≤ MAX_HISTORY_SIZE ∧
    (s.history ≠ [] → 0 ≤ s.historyIndex ∧ s.historyIndex ≤ (s.history.length : Int) - 1) ∧
    (s.history = [] → s.historyIndex = -1)

theorem navInv_initial : NavInv initialNavState := by
  refine ⟨by decide, ?_, fun _ => rfl⟩
  intro h
  simp [initialNavState] at h

theorem navInv_addToHistory_aux (pre : List String) (path : String)
    (hp : pre.length ≤ MAX_HISTORY_SIZE) :
    NavInv
      (if (pre ++ [path]).length > MAX_HISTORY_SIZE then
        { history := (pre ++ [path]).drop 1,
          historyIndex := ((pre ++ [path]).length : Int) - 1 - 1,
          currentPath := some path }
      else
        { history := pre ++ [path],
          historyIndex := ((pre ++ [path]).length : Int) - 1,
          currentPath := some path }) := by
  have hl : (pre ++ [path]).length = pre.length + 1 := by simp
  simp only [MAX_HISTORY_SIZE] at hp
  simp only [NavInv, MAX_HISTORY_SIZE]
  by_cases hover : (pre ++ [path]).length > 50
  · simp only [hover, if_true]
    have hfull : pre.length = 50 := by omega
    refine ⟨?_, fun _ => ?_, fun hnil => ?_⟩
    · try dsimp only
      rw [List.length_drop, hl]
      omega
    · try dsimp only
      rw [List.length_drop, hl]
      push_cast [hl]
      omega
    · exfalso
      have hz := congrArg List.length hnil
      try dsimp only at hz
      rw [List.length_drop, hl] at hz
      simp only [List.length_nil] at hz
      omega
  · simp only [hover, if_false]
    refine ⟨by omega, fun _ => ?_, fun hnil => ?_⟩
    · try dsimp only
      push_cast [hl]
      omega
    · exfalso
      have hz := congrArg List.length hnil
      try dsimp only at hz
      rw [hl] at hz
      simp only [List.length_nil] at hz
      omega

theorem navInv_step (s : NavState) (op : NavOp) (h : NavInv s) : NavInv (navStep s op) := by
  obtain ⟨hlen, hidx, hemp⟩ := h
  cases op with
  | add path =>
    simp only [navStep, addToHistory]
    apply navInv_addToHistory_aux
    split
    · unfold jsSliceTo
      split <;> (rw [List.length_take]; omega)
    · exact hlen
  | back =>
    simp only [navStep, historyBack]
    by_cases hb : canGoBack s
    · simp only [hb, if_true]
      have hgt : 0 < s.historyIndex := by
        simpa [canGoBack] using hb
      refine ⟨hlen, fun hne => ?_, fun hnil => ?_⟩
      · have := hidx hne
        dsimp only
        omega
      · have := hemp hnil
        dsimp only
        omega
    · simp only [hb, if_false]
      exact ⟨hlen, hidx, hemp⟩
  | forward =>
    simp only [navStep, historyForward]
    by_cases hf : canGoForward s
    · simp only [hf, if_true]
      have hlt : s.historyIndex < (s.history.length : Int) - 1 := by
        simpa [canGoForward] using hf
      refine ⟨hlen, fun hne => ?_, fun hnil => ?_⟩
      · have := hidx hne
        dsimp only
        omega
      · exfalso
        have h0 : s.history.length = 0 := by rw [hnil]; rfl
        rw [h0] at hlt
        have := hemp hnil
        omega
    · simp only [hf, if_false]
      exact ⟨hlen, hidx, hemp⟩

theorem navInv_run (ops : List NavOp) : NavInv (navRun ops) := by
  suffices h : ∀ (l : List NavOp) (s : NavState), NavInv s → NavInv (l.foldl navStep s) by
    exact h ops initialNavState navInv_initial
  intro l
  induction l with
  | nil => intro s hs; exact hs
  | cons op rest ih =>
    intro s hs
    exact ih (navStep s op) (navInv_step s op hs)

/-- Claim C9: starting from the initial navigation state (empty history,
    index -1), every sequence of addToHistory, historyBack and
    historyForward calls keeps history.length ≤ 50 (MAX_HISTORY_SIZE) and,
    whenever the history is non-empty, 0 ≤ historyIndex ≤ history.length - 1;
    historyBack and historyForward never modify the history array, and they
    return null exactly when no older (respectively newer) entry exists. -/
theorem c9_history_invariant (ops : List NavOp) :
    (navRun ops).history.length ≤ MAX_HISTORY_SIZE
    ∧ ((navRun ops).history ≠ [] →
        0 ≤ (navRun ops).historyIndex
        ∧ (navRun ops).historyIndex ≤ ((navRun ops).history.length : Int) - 1)
    ∧ (∀ t : NavState,
        (historyBack t).2.history = t.history ∧ (historyForward t).2.history = t.history)
    ∧ ((historyBack (navRun ops)).1 = none ↔ (navRun ops).historyIndex ≤ 0)
    ∧ ((historyForward (navRun ops)).1 = none ↔
        ((navRun ops).history.length : Int) - 1 ≤ (navRun ops).historyIndex) := by
  obtain ⟨hlen, hidx, hemp⟩ := navInv_run ops
  set s := navRun ops with hs
  refine ⟨hlen, hidx, ?_, ?_, ?_⟩
  · intro t
    constructor
    · unfold historyBack
      split <;> rfl
    · unfold historyForward
      split <;> rfl
  · unfold historyBack
    by_cases hb : canGoBack s
    · simp only [hb, if_true]
      have hgt : 0 < s.historyIndex := by simpa [canGoBack] using hb
      have hne : s.history ≠ [] := by
        intro hnil
        have := hemp hnil
        omega
      obtain ⟨h0, h1⟩ := hidx hne
      have hlt : (s.historyIndex - 1).toNat < s.history.length := by omega
      rw [List.getElem?_eq_getElem hlt]
      constructor
      · intro h
        exact absurd h (by simp)
      · intro h
        omega
    · simp only [hb, if_false]
      have : ¬ (0 < s.historyIndex) := by simpa [canGoBack] using hb
      constructor
      · intro _
        omega
      · intro _
        rfl
  · unfold historyForward
    by_cases hf : canGoForward s
    · simp only [hf, if_true]
      have hlt : s.historyIndex < (s.history.length : Int) - 1 := by
        simpa [canGoForward] using hf
      have hne : s.history ≠ [] := by
        intro hnil
        have h0 : s.history.length = 0 := by rw [hnil]; rfl
        have := hemp hnil
        omega
      obtain ⟨h0, h1⟩ := hidx hne
      have hlt' : (s.historyIndex + 1).toNat < s.history.length := by omega
      rw [List.getElem?_eq_getElem hlt']
      constructor
      · intro h
        exact absurd h (by simp)
      · intro h
        omega
    · simp only [hf, if_false]
      have : ¬ (s.historyIndex < (s.history.length : Int) - 1) := by
        simpa [canGoForward] using hf
      constructor
      · intro _
        omega
      · intro _
        rfl

/- ===================================================================
   Part 3: state.js — text search state
   =================================================================== -/

/-- The slice of the state in src/js/state.js used by the text-search
    functions: `searchMatches` holds the highlight elements (their identity
    is irrelevant here, so they are modelled as strings) and
    `currentMatchIndex` starts at -1. -/
structure SearchState where
  searchMatches : List String
  currentMatchIndex : Int
  deriving Repr, DecidableEq

/-- From src/js/state.js `nextMatch()`: cyclic successor via the JS `%`
    operator (truncated remainder, `Int.tmod`). -/
def nextMatch (s : SearchState) : Int × SearchState :=
  if s.searchMatches.length = 0 then (-1, s)
  else
    let i := (s.currentMatchIndex + 1).tmod (s.searchMatches.length : Int)
    (i, { s with currentMatchIndex := i })

/-- From src/js/state.js `prevMatch()`: cyclic predecessor, adding the
    length before taking the JS `%` so the numerator stays non-negative. -/
def prevMatch (s : SearchState) : Int × SearchState :=
  if s.searchMatches.length = 0 then (-1, s)
  else
    let i := (s.currentMatchIndex - 1 + (s.searchMatches.length : Int)).tmod
      (s.searchMatches.length : Int)
    (i, { s with currentMatchIndex := i })

/-- Witness for C9 at the concrete call sequence add "a"; add "b"; back. -/
theorem c9_history_invariant_witness :
    (navRun [NavOp.add "a", NavOp.add "b", NavOp.back]).history.length ≤ MAX_HISTORY_SIZE
    ∧ ((navRun [NavOp.add "a", NavOp.add "b", NavOp.back]).history ≠ [] →
        0 ≤ (navRun [NavOp.add "a", NavOp.add "b", NavOp.back]).historyIndex
        ∧ (navRun [NavOp.add "a", NavOp.add "b", NavOp.back]).historyIndex
          ≤ ((navRun [NavOp.add "a", NavOp.add "b", NavOp.back]).history.length : Int) - 1)
    ∧ (∀ t : NavState,
        (historyBack t).2.history = t.history ∧ (historyForward t).2.history = t.history)
    ∧ ((historyBack (navRun [NavOp.add "a", NavOp.add "b", NavOp.back])).1 = none ↔
        (navRun [NavOp.add "a", NavOp.add "b", NavOp.back]).historyIndex ≤ 0)
    ∧ ((historyForward (navRun [NavOp.add "a", NavOp.add "b", NavOp.back])).1 = none ↔
        ((navRun [NavOp.add "a", NavOp.add "b", NavOp.back]).history.length : Int) - 1
          ≤ (navRun [NavOp.add "a", NavOp.add "b", NavOp.back]).historyIndex) :=
  c9_history_invariant [NavOp.add "a", NavOp.add "b", NavOp.back]

/-- Claim C10: for a non-empty searchMatches list and an in-range index,
    nextMatch and prevMatch keep currentMatchIndex inside
    [0, searchMatches.length - 1] while leaving the match list alone,
    nextMatch followed by prevMatch restores the original index, and on an
    empty match list both return -1 and leave the state unchanged. -/
theorem c10_search_cycle (s : SearchState) (h1 : s.searchMatches ≠ [])
    (h2 : 0 ≤ s.currentMatchIndex)
    (h3 : s.currentMatchIndex < (s.searchMatches.length : Int)) :
    (0 ≤ (nextMatch s).2.currentMatchIndex
      ∧ (nextMatch s).2.currentMatchIndex ≤ (s.searchMatches.length : Int) - 1
      ∧ (nextMatch s).2.searchMatches = s.searchMatches)
    ∧ (0 ≤ (prevMatch s).2.currentMatchIndex
      ∧ (prevMatch s).2.currentMatchIndex ≤ (s.searchMatches.length : Int) - 1
      ∧ (prevMatch s).2.searchMatches = s.searchMatches)
    ∧ (prevMatch (nextMatch s).2).2.currentMatchIndex = s.currentMatchIndex
    ∧ (∀ t : SearchState, t.searchMatches = [] →
        nextMatch t = (-1, t) ∧ prevMatch t = (-1, t)) := by
  have hn0 : s.searchMatches.length ≠ 0 := fun h => h1 (List.length_eq_zero.mp h)
  have hnpos : (0 : Int) < (s.searchMatches.length : Int) := by
    exact_mod_cast Nat.pos_of_ne_zero hn0
  have hnext : nextMatch s
      = (Int.tmod (s.currentMatchIndex + 1) (s.searchMatches.length : Int),
         { s with currentMatchIndex := Int.tmod (s.currentMatchIndex + 1) (s.searchMatches.length : Int) }) := by
    unfold nextMatch
    rw [if_neg hn0]
  have hprev_eq : ∀ t : SearchState, t.searchMatches.length ≠ 0 →
      prevMatch t
      = (Int.tmod (t.currentMatchIndex - 1 + (t.searchMatches.length : Int))
          (t.searchMatches.length : Int),
         { t with currentMatchIndex := Int.tmod (t.currentMatchIndex - 1 + (t.searchMatches.length : Int)) (t.searchMatches.length : Int) }) := by
    intro t ht
    unfold prevMatch
    rw [if_neg ht]
  have hnum1 : (0 : Int) ≤ s.currentMatchIndex + 1 := by omega
  have hnum2 : (0 : Int) ≤ s.currentMatchIndex - 1 + (s.searchMatches.length : Int) := by
    omega
  refine ⟨?_, ?_, ?_, ?_⟩
  · rw [hnext]
    dsimp only
    refine ⟨Int.tmod_nonneg _ hnum1, ?_, rfl⟩
    have := Int.tmod_lt_of_pos (s.currentMatchIndex + 1) hnpos
    omega
  · rw [hprev_eq s hn0]
    dsimp only
    refine ⟨Int.tmod_nonneg _ hnum2, ?_, rfl⟩
    have := Int.tmod_lt_of_pos
      (s.currentMatchIndex - 1 + (s.searchMatches.length : Int)) hnpos
    omega
  · rw [hnext]
    dsimp only
    rw [hprev_eq { s with currentMatchIndex := Int.tmod (s.currentMatchIndex + 1) (s.searchMatches.length : Int) } hn0]
    dsimp only
    have htm : (s.currentMatchIndex + 1).tmod (s.searchMatches.length : Int)
        = (s.currentMatchIndex + 1) % (s.searchMatches.length : Int) :=
      Int.tmod_eq_emod hnum1 (le_of_lt hnpos)
    by_cases hc : s.currentMatchIndex + 1 < (s.searchMatches.length : Int)
    · have hi : (s.currentMatchIndex + 1).tmod (s.searchMatches.length : Int)
          = s.currentMatchIndex + 1 := by
        rw [htm]
        exact Int.emod_eq_of_lt hnum1 hc
      rw [hi]
      have hnum3 : (0 : Int) ≤ s.currentMatchIndex + 1 - 1 + (s.searchMatches.length : Int) := by
        omega
      rw [Int.tmod_eq_emod hnum3 (le_of_lt hnpos)]
      have harr : s.currentMatchIndex + 1 - 1 + (s.searchMatches.length : Int)
          = s.currentMatchIndex + (s.searchMatches.length : Int) * 1 := by ring
      rw [harr, Int.add_mul_emod_self_left]
      exact Int.emod_eq_of_lt h2 h3
    · have hceq : s.currentMatchIndex + 1 = (s.searchMatches.length : Int) := by omega
      have hi : (s.currentMatchIndex + 1).tmod (s.searchMatches.length : Int) = 0 := by
        rw [hceq]
        exact Int.tmod_self
      rw [hi]
      have hnum4 : (0 : Int) ≤ 0 - 1 + (s.searchMatches.length : Int) := by omega
      rw [Int.tmod_eq_emod hnum4 (le_of_lt hnpos)]
      have hlt4 : (0 : Int) - 1 + (s.searchMatches.length : Int)
          < (s.searchMatches.length : Int) := by omega
      rw [Int.emod_eq_of_lt hnum4 hlt4]
      omega
  · intro t ht
    have htl : t.searchMatches.length = 0 := by rw [ht]; rfl
    constructor
    · unfold nextMatch
      rw [if_pos htl]
    · unfold prevMatch
      rw [if_pos htl]

/-- Witness for C10 at the concrete state with matches ["m1", "m2"] and
    index 0. -/
theorem c10_search_cycle_witness :
    (0 ≤ (nextMatch ⟨["m1", "m2"], 0⟩).2.currentMatchIndex
      ∧ (nextMatch ⟨["m1", "m2"], 0⟩).2.currentMatchIndex
        ≤ (((["m1", "m2"] : List String).length : Int)) - 1
      ∧ (nextMatch ⟨["m1", "m2"], 0⟩).2.searchMatches = ["m1", "m2"])
    ∧ (0 ≤ (prevMatch ⟨["m1", "m2"], 0⟩).2.currentMatchIndex
      ∧ (prevMatch ⟨["m1", "m2"], 0⟩).2.currentMatchIndex
        ≤ (((["m1", "m2"] : List String).length : Int)) - 1
      ∧ (prevMatch ⟨["m1", "m2"], 0⟩).2.searchMatches = ["m1", "m2"])
    ∧ (prevMatch (nextMatch ⟨["m1", "m2"], 0⟩).2).2.currentMatchIndex = 0
    ∧ (∀ t : SearchState, t.searchMatches = [] →
        nextMatch t = (-1, t) ∧ prevMatch t = (-1, t)) :=
  c10_search_cycle ⟨["m1", "m2"], 0⟩ (by decide) (by decide) (by decide)

/- ===================================================================
   Part 4: Gopher menu model (GOPHER.md)
   =================================================================== -/

/-- From GOPHER.md: the GopherItemType enum, one tag per menu-line type
    character, with a catch-all for unknown tags. -/
inductive GopherItemType where
  | TextFile
  | Directory
  | CsoPhonebook
  | Error
  | BinHex
  | DosBinary
  | UuEncoded
  | Search
  | Telnet
  | Binary
  | Gif
  | Image
  | Html
  | Info
  | Telnet3270
  | Unknown (c : Char)
  deriving Repr, DecidableEq

/-- Modelled from the spec: `GopherItemType::from_char` exists in the
    repository only through its unit test and the per-variant type-character
    comments on the enum in GOPHER.md; unrecognized characters become
    `Unknown(char)` rather than a parse failure. -/
def GopherItemType.from_char (c : Char) : GopherItemType :=
  if c = '0' then .TextFile
  else if c = '1' then .Directory
  else if c = '2' then .CsoPhonebook
  else if c = '3' then .Error
  else if c = '4' then .BinHex
  else if c = '5' then .DosBinary
  else if c = '6' then .UuEncoded
  else if c = '7' then .Search
  else if c = '8' then .Telnet
  else if c = '9' then .Binary
  else if c = 'g' then .Gif
  else if c = 'I' then .Image
  else if c = 'h' then .Html
  else if c = 'i' then .Info
  else if c = 'T' then .Telnet3270
  else .Unknown c

/-- The type character used when rebuilding a gopher URL, the inverse of
    `from_char` on the known tags (from the enum comments in GOPHER.md). -/
def GopherItemType.type_char : GopherItemType → String
  | .TextFile => "0"
  | .Directory => "1"
  | .CsoPhonebook => "2"
  | .Error => "3"
  | .BinHex => "4"
  | .DosBinary => "5"
  | .UuEncoded => "6"
  | .Search => "7"
  | .Telnet => "8"
  | .Binary => "9"
  | .Gif => "g"
  | .Image => "I"
  | .Html => "h"
  | .Info => "i"
  | .Telnet3270 => "T"
  | .Unknown c => String.singleton c

/-- Modelled from the spec: `item_type.description()` is called by
    to_markdown's catch-all arm in GOPHER.md but defined nowhere in the
    repository; per the spec an unmapped type renders as annotated text
    naming its type. -/
def GopherItemType.description : GopherItemType → String
  | .TextFile => "text file"
  | .Directory => "directory"
  | .CsoPhonebook => "CSO phonebook"
  | .Error => "error"
  | .BinHex => "BinHex file"
  | .DosBinary => "DOS binary"
  | .UuEncoded => "uuencoded file"
  | .Search => "search"
  | .Telnet => "telnet"
  | .Binary => "binary file"
  | .Gif => "GIF image"
  | .Image => "image"
  | .Html => "HTML link"
  | .Info => "information"
  | .Telnet3270 => "telnet 3270"
  | .Unknown c => "unknown type " ++ String.singleton c

/-- From GOPHER.md: one record per Gopher menu line. -/
structure GopherItem where
  item_type : GopherItemType
  display : String
  selector : String
  host : String
  port : Nat
  deriving Repr, DecidableEq

/-- Modelled from the spec: `build_gopher_url` is called throughout
    GOPHER.md's converters but never defined; its output format
    gopher://host:port/<type-char><selector> is fixed by the conversion
    examples and the test test_directory_to_markdown. -/
def build_gopher_url (item : GopherItem) : String :=
  "gopher://" ++ item.host ++ ":" ++ toString item.port ++ "/"
    ++ item.item_type.type_char ++ item.selector

/-- From GOPHER.md `convert_info_line`. -/
def convert_info_line (item : GopherItem) : String :=
  item.display

/-- From GOPHER.md `convert_directory`. -/
def convert_directory (item : GopherItem) : String :=
  "📁 [" ++ item.display ++ "](" ++ build_gopher_url item ++ ")"

/-- From GOPHER.md `convert_text_file`. -/
def convert_text_file (item : GopherItem) : String :=
  "📄 [" ++ item.display ++ "](" ++ build_gopher_url item ++ ")"

/-- From GOPHER.md `convert_search`. -/
def convert_search (item : GopherItem) : String :=
  "🔍 [" ++ item.display ++ "](" ++ build_gopher_url item ++ ")"

/-- From GOPHER.md `convert_html_link`: a selector with the URL: sentinel
    unwraps to the embedded absolute URL. -/
def convert_html_link (item : GopherItem) : String :=
  let url := if item.selector.startsWith "URL:" then item.selector.drop 4
             else item.selector
  "🌐 [" ++ item.display ++ "](" ++ url ++ ")"

/-- From GOPHER.md `to_markdown`: the loop body, with the `prev_was_info`
    flag threaded as an argument.  The blank line is pushed before the
    rendered line exactly in the arms that do so in the source (Directory,
    TextFile, Search, Html, Gif, Image — not Error, not the catch-all). -/
def to_markdown_go : List GopherItem → Bool → String
  | [], _ => ""
  | item :: rest, prev_was_info =>
    match item.item_type with
    | .Info =>
        convert_info_line item ++ ("\n" ++ to_markdown_go rest true)
    | .Directory =>
        (if prev_was_info then "\n" else "")
          ++ (convert_directory item ++ ("\n" ++ to_markdown_go rest false))
    | .TextFile =>
        (if prev_was_info then "\n" else "")
          ++ (convert_text_file item ++ ("\n" ++ to_markdown_go rest false))
    | .Search =>
        (if prev_was_info then "\n" else "")
          ++ (convert_search item ++ ("\n" ++ to_markdown_go rest false))
    | .Html =>
        (if prev_was_info then "\n" else "")
          ++ (convert_html_link item ++ ("\n" ++ to_markdown_go rest false))
    | .Error =>
        ("⚠️ " ++ item.display) ++ ("\n" ++ to_markdown_go rest false)
    | .Gif =>
        (if prev_was_info then "\n" else "")
          ++ (("🖼️ [" ++ item.display ++ "](" ++ build_gopher_url item ++ ")")
              ++ ("\n" ++ to_markdown_go rest false))
    | .Image =>
        (if prev_was_info then "\n" else "")
          ++ (("🖼️ [" ++ item.display ++ "](" ++ build_gopher_url item ++ ")")
              ++ ("\n" ++ to_markdown_go rest false))
    | _ =>
        ("  " ++ item.display ++ " *(" ++ item.item_type.description ++ ")*")
          ++ ("\n" ++ to_markdown_go rest false)

/-- From GOPHER.md `to_markdown(items, base_url)` (base_url is unused in the
    source body as well). -/
def to_markdown (items : List GopherItem) (base_url : String) : String :=
  to_markdown_go items false

/-- The item types whose to_markdown arm inserts a blank line after a run of
    info lines (read off the source arms of to_markdown in GOPHER.md). -/
def takes_blank_after_info : GopherItemType → Bool
  | .Directory => true
  | .TextFile => true
  | .Search => true
  | .Html => true
  | .Gif => true
  | .Image => true
  | _ => false

/-- One rendered menu line, without the newline and blank-line bookkeeping. -/
def render_gopher_line (item : GopherItem) : String :=
  match item.item_type with
  | .Info => convert_info_line item
  | .Directory => convert_directory item
  | .TextFile => convert_text_file item
  | .Search => convert_search item
  | .Html => convert_html_link item
  | .Error => "⚠️ " ++ item.display
  | .Gif => "🖼️ [" ++ item.display ++ "](" ++ build_gopher_url item ++ ")"
  | .Image => "🖼️ [" ++ item.display ++ "](" ++ build_gopher_url item ++ ")"
  | _ => "  " ++ item.display ++ " *(" ++ item.item_type.description ++ ")*"

/-- The blank line separating an item from the list that follows it,
    formulated pairwise: present exactly when the item is an info line and
    the immediately following item's type takes a separator. -/
def blank_between (a : GopherItemType) (l : List GopherItem) : String :=
  match l with
  | [] => ""
  | b :: _ => if a == GopherItemType.Info && takes_blank_after_info b.item_type then "\n"
              else ""

/-- Reference rendering in which the blank-line rule is stated pairwise on
    adjacent items instead of via the prev_was_info flag. -/
def to_markdown_pairwise : List GopherItem → String
  | [] => ""
  | a :: rest =>
      render_gopher_line a
        ++ ("\n" ++ (blank_between a.item_type rest ++ to_markdown_pairwise rest))

/-- The head blank of to_markdown_go, as a function of the incoming flag. -/
def head_blank (p : Bool) (l : List GopherItem) : String :=
  match l with
  | [] => ""
  | b :: _ => if p && takes_blank_after_info b.item_type then "\n" else ""

theorem to_markdown_go_cons (item : GopherItem) (rest : List GopherItem) (p : Bool) :
    to_markdown_go (item :: rest) p
      = (if p && takes_blank_after_info item.item_type then "\n" else "")
        ++ (render_gopher_line item
            ++ ("\n" ++ to_markdown_go rest (item.item_type == GopherItemType.Info))) := by
  obtain ⟨ty, d, sel, h, pt⟩ := item
  cases ty <;> cases p <;> rfl

theorem to_markdown_go_pairwise (l : List GopherItem) (p : Bool) :
    to_markdown_go l p = head_blank p l ++ to_markdown_pairwise l := by
  induction l generalizing p with
  | nil => rfl
  | cons b l' ih =>
    rw [to_markdown_go_cons, ih (b.item_type == GopherItemType.Info)]
    have hb : head_blank (b.item_type == GopherItemType.Info) l'
        = blank_between b.item_type l' := by
      cases l' <;> rfl
    rw [hb]
    rfl

/-- Claim C6, counterexample: an Info line immediately followed by an Error
    line.  The claim requires a blank line after the info run regardless of
    the non-Info type that follows, but to_markdown's Error arm inserts
    none: the output is "Intro\n⚠️ Not found\n" and contains no blank line
    (no "\n\n") anywhere. -/
theorem c6_counterexample :
    to_markdown
        [{ item_type := GopherItemType.Info, display := "Intro", selector := "fake",
           host := "(NULL)", port := 0 },
         { item_type := GopherItemType.Error, display := "Not found", selector := "",
           host := "", port := 0 }] "gopher://example.com/"
      = "Intro\n⚠️ Not found\n"
    ∧ ¬ List.IsInfix ("\n\n".toList) (("Intro\n⚠️ Not found\n").toList) := by
  exact ⟨rfl, by decide⟩

/-- Claim C6 (amended): in gopher-menu-to-Markdown conversion a single blank
    line is inserted after a run of info lines exactly when the run is
    immediately followed by an item of type Directory, TextFile, Search,
    Html, Gif or Image; no blank line is inserted before an Error item or
    before any other item type, and none in any other position.  Stated as:
    to_markdown equals the pairwise reference rendering in which the blank
    line appears precisely between an Info item and an immediately following
    item whose type is in that six-element set (takes_blank_after_info). -/
theorem c6_blank_line_rule (items : List GopherItem) (base_url : String) :
    to_markdown items base_url = to_markdown_pairwise items := by
  have h := to_markdown_go_pairwise items false
  cases items with
  | nil => rfl
  | cons a rest =>
    rw [to_markdown, h]
    rfl

/-- Claim C7: converting a Directory item with display "Documents", selector
    "/docs", host "example.com", port 70 yields Markdown containing the
    folder marker 📁 and the link [Documents](gopher://example.com:70/1/docs). -/
theorem c7_directory_markdown :
    convert_directory
        { item_type := GopherItemType.Directory, display := "Documents",
          selector := "/docs", host := "example.com", port := 70 }
      = "📁 [Documents](gopher://example.com:70/1/docs)"
    ∧ to_markdown
        [{ item_type := GopherItemType.Directory, display := "Documents",
           selector := "/docs", host := "example.com", port := 70 }]
        "gopher://example.com/"
      = "📁 [Documents](gopher://example.com:70/1/docs)\n"
    ∧ List.IsInfix ("📁".toList)
        ("📁 [Documents](gopher://example.com:70/1/docs)".toList)
    ∧ List.IsInfix ("[Documents](gopher://example.com:70/1/docs)".toList)
        ("📁 [Documents](gopher://example.com:70/1/docs)".toList) := by
  refine ⟨rfl, rfl, by decide, by decide⟩

/- ===================================================================
   Part 5: Gopher menu parsing (modelled; gopher.rs is absent)
   =================================================================== -/

/-- Split a character list on a separator; like Rust's str::split, an empty
    input gives one empty piece and a trailing separator gives a trailing
    empty piece. -/
def splitOnChar (sep : Char) : List Char → List (List Char)
  | [] => [[]]
  | c :: rest =>
    let r := splitOnChar sep rest
    if c = sep then [] :: r
    else
      match r with
      | h :: t => (c :: h) :: t
      | [] => [[c]]

/-- Strip one carriage return from the end of a line, if present. -/
def stripTrailingCR : List Char → List Char
  | [] => []
  | ['\r'] => []
  | c :: rest => c :: stripTrailingCR rest

/-- Modelled from the spec: split a response into lines, CRLF-terminated but
    tolerating bare LF (split on LF, strip one trailing CR). -/
def splitResponseLines (s : String) : List String :=
  ((splitOnChar '\n' s.toList).map stripTrailingCR).map List.asString

/-- Parse a decimal port field; a missing or non-numeric field is not a
    number. -/
def parsePortChars (l : List Char) : Option Nat :=
  if l = [] then none
  else if l.all (fun c => c.isDigit) then
    some (l.foldl (fun acc c => acc * 10 + (c.toNat - 48)) 0)
  else none

/-- Modelled from the spec: `parse_menu_line` exists in the repository only
    through its unit tests.  The first character is the item-type tag; the
    remaining text splits on TAB into display, selector, host, port, with
    missing trailing fields defaulting to the empty string / port 0. -/
def parse_menu_line (line : String) : Option GopherItem :=
  match line.toList with
  | [] => none
  | tag :: rest =>
    let fields := splitOnChar '\t' rest
    some
      { item_type := GopherItemType.from_char tag
        display := (fields.getD 0 []).asString
        selector := (fields.getD 1 []).asString
        host := (fields.getD 2 []).asString
        port := (parsePortChars (fields.getD 3 [])).getD 0 }

/-- Modelled from the spec: the per-line loop of `parse_menu` — a lone dot
    line terminates the menu, empty lines are discarded, every other line
    yields one record via parse_menu_line. -/
def parse_menu_lines : List String → List GopherItem
  | [] => []
  | l :: rest =>
    if l = "." then []
    else if l = "" then parse_menu_lines rest
    else
      match parse_menu_line l with
      | some item => item :: parse_menu_lines rest
      | none => parse_menu_lines rest

/-- Modelled from the spec: `parse_menu` over the raw response text. -/
def parse_menu (s : String) : List GopherItem :=
  parse_menu_lines (splitResponseLines s)

/-- Claim C5: parsing "iHello\tfake\t(NULL)\t0\r\n.\r\n" yields exactly one
    Info item with display "Hello"; for every input, blank lines and the
    lone-dot terminator line never produce a menu record (inserting a blank
    line anywhere changes nothing, and everything from the dot line on is
    dropped), so two info lines separated by a blank line yield exactly two
    items. -/
theorem c5_parse_menu :
    parse_menu "iHello\tfake\t(NULL)\t0\r\n.\r\n"
      = [{ item_type := GopherItemType.Info, display := "Hello", selector := "fake",
           host := "(NULL)", port := 0 }]
    ∧ (∀ l₁ l₂ : List String,
        parse_menu_lines (l₁ ++ "" :: l₂) = parse_menu_lines (l₁ ++ l₂))
    ∧ (∀ l : List String, parse_menu_lines ("." :: l) = [])
    ∧ parse_menu "iHello\tfake\t(NULL)\t0\r\n\r\niWorld\tfake\t(NULL)\t0\r\n.\r\n"
      = [{ item_type := GopherItemType.Info, display := "Hello", selector := "fake",
           host := "(NULL)", port := 0 },
         { item_type := GopherItemType.Info, display := "World", selector := "fake",
           host := "(NULL)", port := 0 }] := by
  refine ⟨by decide, ?_, ?_, by decide⟩
  · intro l₁ l₂
    induction l₁ with
    | nil => simp [parse_menu_lines]
    | cons a l₁ ih =>
      by_cases hdot : a = "."
      · simp [parse_menu_lines, hdot]
      · by_cases hnil : a = ""
        · simp [parse_menu_lines, hdot, hnil, ih]
        · cases hp : parse_menu_line a with
          | none => simp [parse_menu_lines, hdot, hnil, hp, ih]
          | some item => simp [parse_menu_lines, hdot, hnil, hp, ih]
  · intro l
    rfl

/- ===================================================================
   Part 6: Trust store (TOFU) — modelled; gemini.rs is absent
   =================================================================== -/

/-- From the spec's data model: a trust entry keyed by (host, port) with the
    certificate fingerprint and a first-seen timestamp. -/
structure TrustEntry where
  host : String
  port : Nat
  fingerprint : String
  firstSeen : Nat
  deriving Repr, DecidableEq

/-- Modelled from the spec: the persistent Trust Store, a mapping keyed by
    (host, port); TofuStore/TofuVerifier appear in the repository only in
    the design documents. -/
structure TofuStore where
  entries : List TrustEntry
  deriving Repr, DecidableEq

/-- The three verification outcomes of the Trust Store contract. -/
inductive VerifyResult where
  | FirstUse
  | Match
  | Mismatch
  deriving Repr, DecidableEq

namespace TofuStore

/-- Modelled from the spec: lookup(host, port) returns the stored
    fingerprint, if any. -/
def lookup (st : TofuStore) (host : String) (port : Nat) : Option String :=
  (st.entries.find? (fun e => e.host == host && e.port == port)).map
    (fun e => e.fingerprint)

/-- Modelled from the spec: record(host, port, fingerprint) appends a new
    entry only when no entry for (host, port) exists. -/
def record (st : TofuStore) (host : String) (port : Nat) (fp : String)
    (now : Nat) : TofuStore :=
  match st.lookup host port with
  | some _ => st
  | none => { entries := st.entries ++ [{ host := host, port := port, fingerprint := fp, firstSeen := now }] }

/-- Modelled from the spec: verify(host, port, candidate) — FirstUse records
    and proceeds, Match proceeds, Mismatch aborts leaving the store
    untouched. -/
def verify (st : TofuStore) (host : String) (port : Nat) (fp : String)
    (now : Nat) : VerifyResult × TofuStore :=
  match st.lookup host port with
  | none => (.FirstUse, st.record host port fp now)
  | some stored => if stored = fp then (.Match, st) else (.Mismatch, st)

end TofuStore

/-- The error taxonomy of the spec (section 7) as far as the claims need
    it. -/
inductive GeminiError where
  | InvalidUrl (msg : String)
  | CertificateMismatch (host : String) (port : Nat)
  | OversizedResponse
  | RedirectLoop
  | ProtocolStatusError (status : Nat) (meta : String)
  | MalformedResponse (status : Nat) (meta : String)
  deriving Repr, DecidableEq

/-- Modelled from the spec: the handshake-level outcome — a fingerprint
    mismatch is surfaced as the distinct CertificateMismatch failure while
    FirstUse and Match let the connection proceed with the (possibly
    updated) store. -/
def tofuHandshake (st : TofuStore) (host : String) (port : Nat) (fp : String)
    (now : Nat) : Except GeminiError TofuStore :=
  match st.verify host port fp now with
  | (.Mismatch, _) => .error (.CertificateMismatch host port)
  | (_, st') => .ok st'

/-- Claim C2: for a (host, port) with no stored entry, the first
    verification of a fingerprint records the entry and succeeds; a second
    verification with the same fingerprint succeeds without re-recording or
    modifying the entry; a verification with a different fingerprint fails
    with CertificateMismatch and leaves the store unchanged. -/
theorem c2_tofu_roundtrip (st : TofuStore) (host : String) (port : Nat)
    (fp fp' : String) (now now' now'' : Nat)
    (hmiss : st.lookup host port = none) (hne : fp' ≠ fp) :
    (st.verify host port fp now).1 = VerifyResult.FirstUse
    ∧ (st.verify host port fp now).2.lookup host port = some fp
    ∧ (st.verify host port fp now).2.verify host port fp now'
        = (VerifyResult.Match, (st.verify host port fp now).2)
    ∧ (st.verify host port fp now).2.verify host port fp' now''
        = (VerifyResult.Mismatch, (st.verify host port fp now).2)
    ∧ tofuHandshake (st.verify host port fp now).2 host port fp' now''
        = .error (.CertificateMismatch host port) := by
  have hrec : (st.verify host port fp now).2
      = { entries := st.entries ++ [{ host := host, port := port, fingerprint := fp, firstSeen := now }] } := by
    unfold TofuStore.verify
    rw [hmiss]
    unfold TofuStore.record
    rw [hmiss]
  have hfind : (st.entries.find? (fun e => e.host == host && e.port == port))
      = none := by
    unfold TofuStore.lookup at hmiss
    exact Option.map_eq_none.mp hmiss
  have hlook : (st.verify host port fp now).2.lookup host port = some fp := by
    rw [hrec]
    unfold TofuStore.lookup
    dsimp only
    rw [List.find?_append, hfind]
    simp [List.find?]
  have hmatch : ∀ (t : TofuStore) (n : Nat), t.lookup host port = some fp →
      t.verify host port fp n = (VerifyResult.Match, t) := by
    intro t n ht
    unfold TofuStore.verify
    rw [ht]
    simp
  have hmis : ∀ (t : TofuStore) (n : Nat), t.lookup host port = some fp →
      t.verify host port fp' n = (VerifyResult.Mismatch, t) := by
    intro t n ht
    unfold TofuStore.verify
    rw [ht]
    simp [Ne.symm hne]
  have hshake : ∀ (t : TofuStore) (n : Nat), t.lookup host port = some fp →
      tofuHandshake t host port fp' n = .error (.CertificateMismatch host port) := by
    intro t n ht
    unfold tofuHandshake
    rw [hmis t n ht]
  refine ⟨?_, hlook, hmatch _ now' hlook, hmis _ now'' hlook, hshake _ now'' hlook⟩
  unfold TofuStore.verify
  rw [hmiss]

/-- Witness for C2 at a concrete empty store, host and fingerprints. -/
theorem c2_tofu_roundtrip_witness :
    (TofuStore.verify ⟨[]⟩ "example.com" 1965 "aa11" 1).1 = VerifyResult.FirstUse
    ∧ (TofuStore.verify ⟨[]⟩ "example.com" 1965 "aa11" 1).2.lookup "example.com" 1965
        = some "aa11"
    ∧ (TofuStore.verify ⟨[]⟩ "example.com" 1965 "aa11" 1).2.verify "example.com" 1965 "aa11" 2
        = (VerifyResult.Match, (TofuStore.verify ⟨[]⟩ "example.com" 1965 "aa11" 1).2)
    ∧ (TofuStore.verify ⟨[]⟩ "example.com" 1965 "aa11" 1).2.verify "example.com" 1965 "bb22" 3
        = (VerifyResult.Mismatch, (TofuStore.verify ⟨[]⟩ "example.com" 1965 "aa11" 1).2)
    ∧ tofuHandshake (TofuStore.verify ⟨[]⟩ "example.com" 1965 "aa11" 1).2
        "example.com" 1965 "bb22" 3
        = .error (.CertificateMismatch "example.com" 1965) :=
  c2_tofu_roundtrip ⟨[]⟩ "example.com" 1965 "aa11" "bb22" 1 2 3 rfl (by decide)

/- ===================================================================
   Part 7: Gemini status machine (modelled; gemini.rs is absent)
   =================================================================== -/

/-- Modelled from the spec / Copilot instructions: the redirect hop limit
    ("maks 5 redirects"). -/
def MAX_REDIRECTS : Nat := 5

/-- A parsed Gemini response header (status, meta) plus the body bytes that
    follow a 2x status. -/
structure GeminiResponse where
  status : Nat
  meta : String
  body : String
  deriving Repr, DecidableEq

/-- The outcome categories of the Gemini status machine (spec section 4.5),
    keyed on the first digit of the two-digit status. -/
inductive StatusClass where
  | input
  | success
  | redirect
  | tempFailure
  | permFailure
  | certRequired
  | invalid
  deriving Repr, DecidableEq

/-- Classify a status code by its tens digit (1x–6x). -/
def statusClass (status : Nat) : StatusClass :=
  if status / 10 = 1 then .input
  else if status / 10 = 2 then .success
  else if status / 10 = 3 then .redirect
  else if status / 10 = 4 then .tempFailure
  else if status / 10 = 5 then .permFailure
  else if status / 10 = 6 then .certRequired
  else .invalid

/-- Whether a URL carries the gemini scheme (the character-level equivalent
    of startsWith "gemini://"). -/
def isGeminiUrl (s : String) : Bool :=
  List.isPrefixOf ("gemini://".toList) s.toList

/-- A terminal fetch outcome as seen from the caller. -/
inductive GeminiOutcome where
  | success (body : String) (finalUrl : String)
  | inputRequired (prompt : String) (sensitive : Bool)
  | crossProtocol (url : String)
  | failure (e : GeminiError)
  deriving Repr, DecidableEq

/-- One classified response, as consumed by the fetch loop: either a
    terminal outcome or a redirect to follow. -/
inductive StepResult where
  | done (o : GeminiOutcome)
  | followRedirect (target : String)
  deriving Repr, DecidableEq

/-- Modelled from the spec: classify one response against the requested
    URL.  On 1x no I/O follows: the prompt (meta) is returned with the
    sensitivity marker (status 11 sensitive, 10 not); a 3x inside the
    gemini scheme is followed, a 3x to another scheme is surfaced as a
    cross-protocol signal; 4x/5x/6x carry status and meta. -/
def geminiStep (resp : GeminiResponse) (url : String) : StepResult :=
  match statusClass resp.status with
  | .input => .done (.inputRequired resp.meta (resp.status == 11))
  | .success => .done (.success resp.body url)
  | .redirect =>
      if isGeminiUrl resp.meta then .followRedirect resp.meta
      else .done (.crossProtocol resp.meta)
  | .tempFailure => .done (.failure (.ProtocolStatusError resp.status resp.meta))
  | .permFailure => .done (.failure (.ProtocolStatusError resp.status resp.meta))
  | .certRequired => .done (.failure (.ProtocolStatusError resp.status resp.meta))
  | .invalid => .done (.failure (.MalformedResponse resp.status resp.meta))

/-- Modelled from the spec: the iterative request loop of the Gemini fetch.
    `respond k u` is the network oracle: the response the server gives to
    the (k+1)-th request, issued against URL u.  `fuel` is the number of
    redirect hops still allowed; `issued` counts requests already sent.
    The second component of the result is the total number of requests
    issued.  A redirect met with the hop budget exhausted is the
    RedirectLoop failure. -/
def geminiGo (respond : Nat → String → GeminiResponse) :
    Nat → String → Nat → GeminiOutcome × Nat
  | 0, url, issued =>
    (match geminiStep (respond issued url) url with
     | .done o => o
     | .followRedirect _ => .failure .RedirectLoop, issued + 1)
  | fuel + 1, url, issued =>
    match geminiStep (respond issued url) url with
    | .done o => (o, issued + 1)
    | .followRedirect target => geminiGo respond fuel target (issued + 1)

/-- Modelled from the spec: `fetch_gemini` drives the status machine from
    the requested URL with the full redirect budget. -/
def fetch_gemini (respond : Nat → String → GeminiResponse) (url : String) :
    GeminiOutcome × Nat :=
  geminiGo respond MAX_REDIRECTS url 0

/-- Modelled from the spec: `submit_gemini_input` appends the user's text as
    a query component of the original URL and restarts the fetch. -/
def submit_gemini_input (respond : Nat → String → GeminiResponse)
    (url input : String) : GeminiOutcome × Nat :=
  fetch_gemini respond (url ++ "?" ++ input)

theorem geminiStep_redirect (resp : GeminiResponse) (url : String)
    (hred : statusClass resp.status = StatusClass.redirect)
    (hgem : isGeminiUrl resp.meta = true) :
    geminiStep resp url = .followRedirect resp.meta := by
  unfold geminiStep
  rw [hred]
  dsimp only
  rw [hgem, if_pos rfl]

theorem geminiGo_requests_le (respond : Nat → String → GeminiResponse)
    (fuel : Nat) (url : String) (issued : Nat) :
    (geminiGo respond fuel url issued).2 ≤ issued + fuel + 1 := by
  induction fuel generalizing url issued with
  | zero =>
    unfold geminiGo
    omega
  | succ fuel ih =>
    unfold geminiGo
    split
    · omega
    · exact le_trans (ih _ (issued + 1)) (by omega)

theorem geminiGo_redirect_chain (respond : Nat → String → GeminiResponse)
    (fuel : Nat) (url : String) (issued : Nat)
    (h : ∀ k u, k < issued + fuel + 1 →
      statusClass (respond k u).status = StatusClass.redirect
      ∧ isGeminiUrl (respond k u).meta = true) :
    geminiGo respond fuel url issued
      = (.failure .RedirectLoop, issued + fuel + 1) := by
  induction fuel generalizing url issued with
  | zero =>
    obtain ⟨hred, hgem⟩ := h issued url (by omega)
    unfold geminiGo
    rw [geminiStep_redirect _ _ hred hgem]
  | succ fuel ih =>
    obtain ⟨hred, hgem⟩ := h issued url (by omega)
    unfold geminiGo
    rw [geminiStep_redirect _ _ hred hgem]
    dsimp only
    have hrec := ih (respond issued url).meta (issued + 1)
      (fun k u hk => h k u (by omega))
    rw [hrec]
    have harith : issued + 1 + fuel + 1 = issued + (fuel + 1) + 1 := by omega
    rw [harith]

/-- Claim C1: six consecutive 3x responses (staying on the gemini scheme)
    drive the fetch into the RedirectLoop failure after exactly six
    requests — the hop limit is five — and a seventh request is never
    issued for any oracle whatsoever. -/
theorem c1_redirect_loop (respond : Nat → String → GeminiResponse)
    (url : String)
    (h : ∀ k u, k < 6 →
      statusClass (respond k u).status = StatusClass.redirect
      ∧ isGeminiUrl (respond k u).meta = true) :
    fetch_gemini respond url = (.failure .RedirectLoop, 6)
    ∧ (∀ (respond' : Nat → String → GeminiResponse) (url' : String),
        (fetch_gemini respond' url').2 ≤ 6) := by
  constructor
  · exact geminiGo_redirect_chain respond MAX_REDIRECTS url 0 h
  · intro respond' url'
    exact geminiGo_requests_le respond' MAX_REDIRECTS url' 0

/-- Witness for C1: a server that always answers 31 with a gemini URL. -/
theorem c1_redirect_loop_witness :
    fetch_gemini (fun _ _ => { status := 31, meta := "gemini://example.com/next", body := "" })
        "gemini://example.com/"
      = (.failure .RedirectLoop, 6)
    ∧ (∀ (respond' : Nat → String → GeminiResponse) (url' : String),
        (fetch_gemini respond' url').2 ≤ 6) :=
  c1_redirect_loop
    (fun _ _ => { status := 31, meta := "gemini://example.com/next", body := "" })
    "gemini://example.com/"
    (fun k u hk =>
      ⟨(by decide : statusClass 31 = StatusClass.redirect),
       (by decide : isGeminiUrl "gemini://example.com/next" = true)⟩)

theorem geminiStep_input (resp : GeminiResponse) (url : String)
    (h : statusClass resp.status = StatusClass.input) :
    geminiStep resp url
      = .done (.inputRequired resp.meta (resp.status == 11)) := by
  unfold geminiStep
  rw [h]

theorem geminiGo_input (respond : Nat → String → GeminiResponse)
    (fuel : Nat) (url : String) (issued : Nat)
    (h : statusClass (respond issued url).status = StatusClass.input) :
    geminiGo respond fuel url issued
      = (.inputRequired (respond issued url).meta
          ((respond issued url).status == 11), issued + 1) := by
  cases fuel with
  | zero =>
    unfold geminiGo
    rw [geminiStep_input _ _ h]
  | succ fuel =>
    unfold geminiGo
    rw [geminiStep_input _ _ h]

/- ===================================================================
   Part 8: frontend dispatch of Gemini input prompts (navigation.js)
   =================================================================== -/

/-- JavaScript `s.startsWith(p)` at the character level. -/
def jsStartsWith (s p : String) : Bool :=
  List.isPrefixOf p.toList s.toList

/-- JavaScript `s.substring(n)` at the character level. -/
def jsSubstringFrom (s : String) (n : Nat) : String :=
  (s.toList.drop n).asString

/-- What the frontend does with the result of a failed fetch_gemini call. -/
inductive GeminiFrontendAction where
  | showDialog (prompt : String) (sensitive : Bool)
  | showError (msg : String)
  deriving Repr, DecidableEq

/-- From src/js/navigation.js `loadGeminiUrl` (catch branch): an error
    string carrying the input-prompt marker opens the input dialog with the
    prompt text that follows the marker, non-sensitive for
    GEMINI_INPUT_PROMPT and sensitive for GEMINI_SENSITIVE_INPUT_PROMPT;
    anything else is shown as an error. -/
def classifyGeminiFetchError (err : String) : GeminiFrontendAction :=
  if jsStartsWith err geminiInputPromptTag then
    .showDialog (jsSubstringFrom err geminiInputPromptTag.length) false
  else if jsStartsWith err geminiSensitiveInputPromptTag then
    .showDialog (jsSubstringFrom err geminiSensitiveInputPromptTag.length) true
  else .showError err

/-- Claim C4: a 1x Input status ends the fetch after that single request —
    no further network I/O — returning the server's prompt (meta) with the
    sensitivity marker (status 11 sensitive, status 10 not); resubmission
    happens only through the separate submit_gemini_input operation, which
    appends the user's text as a query component of the original URL and
    restarts the fetch; and the frontend turns the two prompt markers into
    the input dialog with the right sensitivity. -/
theorem c4_input_flow (respond : Nat → String → GeminiResponse)
    (url input : String)
    (h : statusClass (respond 0 url).status = StatusClass.input) :
    fetch_gemini respond url
      = (.inputRequired (respond 0 url).meta ((respond 0 url).status == 11), 1)
    ∧ submit_gemini_input respond url input
        = fetch_gemini respond (url ++ "?" ++ input)
    ∧ (∀ (m b : String) (u : String),
        fetch_gemini (fun _ _ => { status := 10, meta := m, body := b }) u
          = (.inputRequired m false, 1))
    ∧ (∀ (m b : String) (u : String),
        fetch_gemini (fun _ _ => { status := 11, meta := m, body := b }) u
          = (.inputRequired m true, 1))
    ∧ classifyGeminiFetchError (geminiInputPromptTag ++ "Enter search terms")
        = .showDialog "Enter search terms" false
    ∧ classifyGeminiFetchError (geminiSensitiveInputPromptTag ++ "Passord")
        = .showDialog "Passord" true := by
  refine ⟨?_, rfl, ?_, ?_, by decide, by decide⟩
  · exact geminiGo_input respond MAX_REDIRECTS url 0 h
  · intro m b u
    exact geminiGo_input (fun _ _ => { status := 10, meta := m, body := b })
      MAX_REDIRECTS u 0 (by decide : statusClass 10 = StatusClass.input)
  · intro m b u
    exact geminiGo_input (fun _ _ => { status := 11, meta := m, body := b })
      MAX_REDIRECTS u 0 (by decide : statusClass 11 = StatusClass.input)

/-- Witness for C4: a server answering 11 with the prompt "Passord". -/
theorem c4_input_flow_witness :
    fetch_gemini (fun _ _ => { status := 11, meta := "Passord", body := "" })
        "gemini://example.com/"
      = (.inputRequired "Passord" true, 1)
    ∧ submit_gemini_input (fun _ _ => { status := 11, meta := "Passord", body := "" })
        "gemini://example.com/" "hemmelig"
        = fetch_gemini (fun _ _ => { status := 11, meta := "Passord", body := "" })
            ("gemini://example.com/" ++ "?" ++ "hemmelig")
    ∧ (∀ (m b : String) (u : String),
        fetch_gemini (fun _ _ => { status := 10, meta := m, body := b }) u
          = (.inputRequired m false, 1))
    ∧ (∀ (m b : String) (u : String),
        fetch_gemini (fun _ _ => { status := 11, meta := m, body := b }) u
          = (.inputRequired m true, 1))
    ∧ classifyGeminiFetchError (geminiInputPromptTag ++ "Enter search terms")
        = .showDialog "Enter search terms" false
    ∧ classifyGeminiFetchError (geminiSensitiveInputPromptTag ++ "Passord")
        = .showDialog "Passord" true :=
  c4_input_flow (fun _ _ => { status := 11, meta := "Passord", body := "" })
    "gemini://example.com/" "hemmelig" (by decide)

/- ===================================================================
   Part 9: bounded response reader (modelled; the Rust reader is absent)
   =================================================================== -/

/-- From the design documents: the response size ceiling, 5 MB. -/
def MAX_RESPONSE_SIZE : Nat := 5 * 1024 * 1024

/-- Modelled from the spec: the bounded read loop.  The stream arrives as
    chunks of bytes; each chunk is appended to the accumulator and the read
    aborts with OversizedResponse the moment the accumulated length exceeds
    the ceiling — the rest of the stream is never read and the partial data
    is discarded. -/
def readChunks : List (List Nat) → List Nat → Except GeminiError (List Nat)
  | [], acc => .ok acc
  | chunk :: rest, acc =>
    if MAX_RESPONSE_SIZE < (acc ++ chunk).length then .error .OversizedResponse
    else readChunks rest (acc ++ chunk)

/-- Modelled from the spec: the fetch pipeline — a converter (gemtext or
    gopher-menu) runs only on a successfully completed read. -/
def fetchConverted (conv : List Nat → String) (chunks : List (List Nat)) :
    Except GeminiError String :=
  (readChunks chunks []).map conv

theorem readChunks_overflow (chunks : List (List Nat)) (acc : List Nat)
    (hacc : acc.length ≤ MAX_RESPONSE_SIZE)
    (h : MAX_RESPONSE_SIZE < acc.length + (chunks.map List.length).sum) :
    readChunks chunks acc = .error .OversizedResponse := by
  induction chunks generalizing acc with
  | nil =>
    exfalso
    simp only [List.map_nil, List.sum_nil] at h
    omega
  | cons chunk rest ih =>
    unfold readChunks
    by_cases hover : MAX_RESPONSE_SIZE < (acc ++ chunk).length
    · rw [if_pos hover]
    · rw [if_neg hover]
      apply ih
      · simp only [List.length_append] at hover ⊢
        omega
      · simp only [List.length_append]
        simp only [List.map_cons, List.sum_cons] at h
        omega

/-- Claim C3: a byte stream exceeding the 5 MB ceiling makes the fetch
    return the OversizedResponse failure; no converter whatsoever is ever
    applied to the partial data, and the stream past the ceiling is never
    read (appending more chunks after an already-oversized stream does not
    change the result). -/
theorem c3_oversized_response (chunks : List (List Nat))
    (conv : List Nat → String)
    (h : MAX_RESPONSE_SIZE < (chunks.map List.length).sum) :
    fetchConverted conv chunks = .error .OversizedResponse
    ∧ (∀ conv' : List Nat → String,
        fetchConverted conv' chunks = .error .OversizedResponse)
    ∧ (∀ rest : List (List Nat),
        readChunks (chunks ++ rest) [] = readChunks chunks []) := by
  have hread : readChunks chunks [] = .error .OversizedResponse := by
    apply readChunks_overflow
    · simp [MAX_RESPONSE_SIZE]
    · simpa using h
  refine ⟨?_, fun conv' => ?_, fun rest => ?_⟩
  · unfold fetchConverted
    rw [hread]
    rfl
  · unfold fetchConverted
    rw [hread]
    rfl
  · have hread' : readChunks (chunks ++ rest) [] = .error .OversizedResponse := by
      apply readChunks_overflow
      · simp [MAX_RESPONSE_SIZE]
      · simp only [List.map_append, List.sum_append, List.length_nil]
        omega
    rw [hread, hread']

/-- Witness for C3: a single chunk one byte over the ceiling. -/
theorem c3_oversized_response_witness :
    fetchConverted (fun _ => "") [List.replicate (MAX_RESPONSE_SIZE + 1) 0]
      = .error .OversizedResponse
    ∧ (∀ conv' : List Nat → String,
        fetchConverted conv' [List.replicate (MAX_RESPONSE_SIZE + 1) 0]
          = .error .OversizedResponse)
    ∧ (∀ rest : List (List Nat),
        readChunks ([List.replicate (MAX_RESPONSE_SIZE + 1) 0] ++ rest) []
          = readChunks [List.replicate (MAX_RESPONSE_SIZE + 1) 0] []) :=
  c3_oversized_response [List.replicate (MAX_RESPONSE_SIZE + 1) 0] (fun _ => "")
    (by simp)

/- ===================================================================
   Part 10: gemtext conversion (modelled; gemtext.rs is absent)
   =================================================================== -/

/-- Space or tab, the separators inside a gemtext link line. -/
def isGemtextSpace (c : Char) : Bool :=
  c = ' ' || c = '\t'

/-- Modelled from the spec / Copilot instructions: render one link as
    Markdown, preserving the link text or falling back to the URL when no
    text is given. -/
def gemtextRenderLink (url text : String) : String :=
  if text = "" then "[" ++ url ++ "](" ++ url ++ ")"
  else "[" ++ text ++ "](" ++ url ++ ")"

/-- Modelled from the spec: split a link line's body (after the => marker)
    into the URL (first whitespace-free token) and the remaining link
    text. -/
def gemtextLinkLine (line : String) : String :=
  let body := (line.toList.drop 2).dropWhile isGemtextSpace
  let url := body.takeWhile (fun c => !(isGemtextSpace c))
  let text := (body.dropWhile (fun c => !(isGemtextSpace c))).dropWhile isGemtextSpace
  gemtextRenderLink url.asString text.asString

/-- Modelled from the spec: one non-preformatted gemtext line — link lines
    become Markdown links, list lines become Markdown list items, headings
    and blockquotes and plain text pass through. -/
def gemtextLineToMarkdown (line : String) : String :=
  if jsStartsWith line "=>" then gemtextLinkLine line
  else if jsStartsWith line "* " then "- " ++ (line.toList.drop 2).asString
  else line

/-- Modelled from the spec: the line loop with the preformatted-block
    toggle; fence lines flip the state and everything inside a block is
    copied verbatim. -/
def gemtextLines : List String → Bool → List String
  | [], _ => []
  | l :: rest, inPre =>
    if jsStartsWith l "```" then l :: gemtextLines rest (!inPre)
    else if inPre then l :: gemtextLines rest true
    else gemtextLineToMarkdown l :: gemtextLines rest false

/-- Join converted lines back with newlines. -/
def joinLines : List String → String
  | [] => ""
  | [l] => l
  | l :: rest => l ++ "\n" ++ joinLines rest

/-- Modelled from the spec: `gemtext_to_markdown`. -/
def gemtext_to_markdown (input : String) : String :=
  joinLines (gemtextLines (splitResponseLines input) false)

/-- Claim C8: the line "=> gemini://example.com/x Example" becomes a
    Markdown link with visible text "Example" and target
    gemini://example.com/x, and a link line with no link text uses the URL
    itself as the visible text (shown both through the full converter on a
    concrete line and for every URL at the rendering step). -/
theorem c8_gemtext_links :
    gemtext_to_markdown "=> gemini://example.com/x Example"
      = "[Example](gemini://example.com/x)"
    ∧ gemtext_to_markdown "=> gemini://example.com/x"
      = "[gemini://example.com/x](gemini://example.com/x)"
    ∧ (∀ url : String, gemtextRenderLink url "" = "[" ++ url ++ "](" ++ url ++ ")")
    ∧ (∀ url text : String, text ≠ "" →
        gemtextRenderLink url text = "[" ++ text ++ "](" ++ url ++ ")") := by
  refine ⟨by decide, by decide, fun url => rfl, fun url text h => ?_⟩
  unfold gemtextRenderLink
  rw [if_neg h]

/-- Witness for C8 at a concrete URL and link text. -/
theorem c8_gemtext_links_witness :
    gemtextRenderLink "gemini://example.org/" "Hjem"
      = "[Hjem](gemini://example.org/)" :=
  c8_gemtext_links.2.2.2 "gemini://example.org/" "Hjem" (by decide)
